import Mathlib

/-!
Verification of the `gridstore` uniform spatial grid library.

The Rust source (`src/lib.rs`, `src/iter.rs`, `src/iter_coords.rs`,
`src/iter_with_coords.rs`) is shallowly embedded below:

* physical `f32` coordinates are modelled as rationals `ℚ`; `libm::floorf`
  becomes `Int.floor`, and Rust's saturating `as usize` cast of a
  non-negative-or-clamped float becomes `Int.toNat` (negative values go
  to `0`, exactly as the saturating cast does);
* `Vec<Vec<Vec<V>>>` storage becomes `List (List (List V))`;
* panics (`assert!`, `assert_eq!`) become `Option`/guard results;
* the `loop` in `IterGridRect::next` is given explicit fuel; the fuel bound
  is large enough for every state whose cursor can make progress, so on all
  states reachable through the public API the fuelled loop agrees with the
  source loop.
-/

namespace Gridstore

/-- Shallow embedding of `struct Grid<V>` from `src/lib.rs`. -/
structure Grid (V : Type) where
  x : ℚ
  y : ℚ
  width : ℚ
  height : ℚ
  cell_width : ℚ
  cell_height : ℚ
  columns : Nat
  rows : Nat
  layers : Nat
  offset_x : ℚ
  offset_y : ℚ
  data : List (List (List V))

variable {V : Type}

/-- Nested `Option` lookup `data[layer][col][row]`, the chain of `?`/`get`
calls used by `Grid::get_cell_by_indices`. -/
def lookup (data : List (List (List V))) (layer col row : Nat) : Option V :=
  (data.get? layer).bind fun L => (L.get? col).bind fun c => c.get? row

/-- Embedding of `Grid::get_cell_by_indices` (src/lib.rs:228). -/
def Grid.get_cell_by_indices (g : Grid V) (col row layer : Nat) : Option V :=
  lookup g.data layer col row

/-- Embedding of `Grid::get_cell_coords` (src/lib.rs:198): translate by the
pivot offset, reject negative translated coordinates, else floor-divide by
the cell size and cast to `usize`. -/
def Grid.get_cell_coords (g : Grid V) (x y : ℚ) : Option (Nat × Nat) :=
  if x + g.offset_x < 0 then none
  else if y + g.offset_y < 0 then none
  else
    some ((Int.floor ((x + g.offset_x) / g.cell_width)).toNat,
      (Int.floor ((y + g.offset_y) / g.cell_height)).toNat)

/-- Embedding of `Grid::get_cell` (src/lib.rs:214). -/
def Grid.get_cell (g : Grid V) (x y : ℚ) (layer : Nat) : Option V :=
  (g.get_cell_coords x y).bind fun c => g.get_cell_by_indices c.1 c.2 layer

/-- Embedding of `Grid::get_edges` (src/lib.rs:249).  The source computes
`(floorf(e / size).max(0.0) as usize).min(max)` for the low edges and
`(floorf(e / size) as usize).min(max)` for the high ones; the saturating
`as usize` cast is `Int.toNat`. -/
def Grid.get_edges (g : Grid V) (left bottom right top : ℚ) :
    Nat × Nat × Nat × Nat :=
  (min (Int.toNat (max (Int.floor ((left + g.offset_x) / g.cell_width)) 0)) (g.columns - 1),
   min (Int.toNat (max (Int.floor ((bottom + g.offset_y) / g.cell_height)) 0)) (g.rows - 1),
   min (Int.toNat (Int.floor ((right + g.offset_x) / g.cell_width))) (g.columns - 1),
   min (Int.toNat (Int.floor ((top + g.offset_y) / g.cell_height))) (g.rows - 1))

/-- Embedding of `Grid::new` (src/lib.rs:74).  The `FnMut` factory is
modelled by its call index; the `assert!` guards become an `Option` result
(`none` = panic).  The field initialisers are transcribed exactly as in the
source, including `cell_height: height / columns as f32` and
`offset_y: width / 2.0`. -/
def Grid.new? (width height : ℚ) (columns rows layers : Nat) (func : Nat → V) :
    Option (Grid V) :=
  let data : List (List (List V)) :=
    (List.range layers).map fun l =>
      (List.range columns).map fun c =>
        (List.range rows).map fun r => func ((l * columns + c) * rows + r)
  if 0 ≤ width ∧ 0 ≤ height ∧ 0 < columns ∧ 0 < rows ∧ 0 < layers then
    some
      { x := 0
        y := 0
        width := width
        height := height
        cell_width := width / (columns : ℚ)
        cell_height := height / (columns : ℚ)
        columns := columns
        rows := rows
        layers := layers
        offset_x := width / 2
        offset_y := width / 2
        data := data }
  else none

/-- Cursor state of `struct IterGridRect` (src/iter.rs).  The borrowed grid
is passed separately to `next`; all other fields are carried here. -/
structure IterGridRect where
  layer : Nat
  y_up : Bool
  top : Nat
  bottom : Nat
  left : Nat
  right : Nat
  current_row : Nat
  current_col : Nat
  done : Bool
deriving Repr, DecidableEq

/-- Embedding of `IterGridRect::advance` (src/iter.rs:69).  `current_row - 1`
uses truncated `Nat` subtraction; the source's `usize` subtraction only
differs on states with `current_row = 0 < bottom`, which no constructed
iterator reaches. -/
def IterGridRect.advance (s : IterGridRect) : IterGridRect :=
  if s.current_col + 1 > s.right then
    if s.y_up then
      if s.current_row + 1 > s.top then
        { s with current_col := s.left, current_row := s.current_row + 1, done := true }
      else
        { s with current_col := s.left, current_row := s.current_row + 1 }
    else
      if s.current_row = s.bottom then
        { s with current_col := s.left, done := true }
      else
        { s with current_col := s.left, current_row := s.current_row - 1 }
  else
    { s with current_col := s.current_col + 1 }

/-- Fuelled embedding of the `loop` in `IterGridRect::next` (src/iter.rs:21),
instrumented to also report the `(column, row)` at which the returned cell
was looked up.  The only recursive branch is the source's
`else { self.advance() }` continue. -/
def IterGridRect.nextGo (data : List (List (List V))) :
    Nat → IterGridRect → Option (V × Nat × Nat) × IterGridRect
  | 0, s => (none, s)
  | fuel + 1, s =>
    if s.done then (none, s)
    else
      match data.get? s.layer with
      | none => (none, s)
      | some layer =>
        match layer.get? s.current_col with
        | some col =>
          match col.get? s.current_row with
          | some cell => (some (cell, s.current_col, s.current_row), s.advance)
          | none => (none, s)
        | none => nextGo data fuel s.advance

/-- Fuel for the `next` loop: enough iterations for any state from which the
source loop terminates. -/
def IterGridRect.loopFuel (s : IterGridRect) : Nat :=
  (s.right + 2) * (s.top + s.current_row + 2)

/-- Instrumented `IterGridRect::next`: the yielded cell together with the
coordinates it was read from. -/
def IterGridRect.nextc (data : List (List (List V))) (s : IterGridRect) :
    Option (V × Nat × Nat) × IterGridRect :=
  IterGridRect.nextGo data s.loopFuel s

/-- Embedding of `IterGridRect::next` (src/iter.rs:21). -/
def IterGridRect.next (data : List (List (List V))) (s : IterGridRect) :
    Option V × IterGridRect :=
  let r := IterGridRect.nextc data s
  (r.1.map (fun p => p.1), r.2)

/-- Embedding of `IterGridRect::y_down` (src/iter.rs:44); the
`assert_eq!(current_row, bottom)` becomes a guard, `none` modelling the
panic. -/
def IterGridRect.y_down (s : IterGridRect) : Option IterGridRect :=
  if s.current_row = s.bottom then
    some { s with y_up := false, current_row := s.top }
  else none

/-- Embedding of `Grid::iter_cells_in_rect` (src/lib.rs:275). -/
def Grid.iter_cells_in_rect (g : Grid V) (left bottom right top : ℚ)
    (layer : Nat) : IterGridRect :=
  let e := g.get_edges left bottom right top
  { layer := layer
    y_up := true
    left := e.1
    right := e.2.2.1
    top := e.2.2.2
    bottom := e.2.1
    current_row := e.2.1
    current_col := e.1
    done := false }

/-- Collect the values produced by repeatedly calling `next`, with fuel for
the number of calls. -/
def IterGridRect.run (data : List (List (List V))) :
    Nat → IterGridRect → List V
  | 0, _ => []
  | fuel + 1, s =>
    match IterGridRect.next data s with
    | (none, _) => []
    | (some v, s1) => v :: IterGridRect.run data fuel s1

/-- Collect the instrumented `(value, column, row)` triples of the
traversal: each triple records where `next` actually read its value. -/
def IterGridRect.runTrace (data : List (List (List V))) :
    Nat → IterGridRect → List (V × Nat × Nat)
  | 0, _ => []
  | fuel + 1, s =>
    match IterGridRect.nextc data s with
    | (none, _) => []
    | (some v, s1) => v :: IterGridRect.runTrace data fuel s1

/-- State after calling `next` a given number of times. -/
def IterGridRect.iterate (data : List (List (List V))) :
    Nat → IterGridRect → IterGridRect
  | 0, s => s
  | fuel + 1, s => IterGridRect.iterate data fuel (IterGridRect.next data s).2

/-- Cursor state of `struct IterCoords` (src/iter_coords.rs). -/
structure IterCoords where
  y_up : Bool
  top : Nat
  bottom : Nat
  left : Nat
  right : Nat
  current_row : Nat
  current_col : Nat
  done : Bool
deriving Repr, DecidableEq

/-- Embedding of `IterCoords::advance` (src/iter_coords.rs:45), identical in
structure to `IterGridRect::advance`. -/
def IterCoords.advance (s : IterCoords) : IterCoords :=
  if s.current_col + 1 > s.right then
    if s.y_up then
      if s.current_row + 1 > s.top then
        { s with current_col := s.left, current_row := s.current_row + 1, done := true }
      else
        { s with current_col := s.left, current_row := s.current_row + 1 }
    else
      if s.current_row = s.bottom then
        { s with current_col := s.left, done := true }
      else
        { s with current_col := s.left, current_row := s.current_row - 1 }
  else
    { s with current_col := s.current_col + 1 }

/-- Embedding of `IterCoords::next` (src/iter_coords.rs:18): no lookup, so
no loop is needed. -/
def IterCoords.next (s : IterCoords) : Option (Nat × Nat) × IterCoords :=
  if s.done then (none, s)
  else (some (s.current_col, s.current_row), s.advance)

/-- Embedding of `IterCoords::y_down` (src/iter_coords.rs:32), the
`assert_eq!` again modelled as a guard. -/
def IterCoords.y_down (s : IterCoords) : Option IterCoords :=
  if s.current_row = s.bottom then
    some { s with y_up := false, current_row := s.top }
  else none

/-- Collect the coordinate pairs produced by an `IterCoords` traversal. -/
def IterCoords.run : Nat → IterCoords → List (Nat × Nat)
  | 0, _ => []
  | fuel + 1, s =>
    match IterCoords.next s with
    | (none, _) => []
    | (some c, s1) => c :: IterCoords.run fuel s1

/-- Embedding of `Grid::iter_coords_in_rect` (src/lib.rs:302). -/
def Grid.iter_coords_in_rect (g : Grid V) (left bottom right top : ℚ) :
    IterCoords :=
  let e := g.get_edges left bottom right top
  { y_up := true
    top := e.2.2.2
    bottom := e.2.1
    left := e.1
    right := e.2.2.1
    current_row := e.2.1
    current_col := e.1
    done := false }

/-- Write `v` into `data[layer][col][row]`, the effect of mutating through
`get_cell_by_indices_mut`; absent indices leave the data unchanged. -/
def setCell (data : List (List (List V))) (layer col row : Nat) (v : V) :
    List (List (List V)) :=
  match data.get? layer with
  | none => data
  | some L =>
    match L.get? col with
    | none => data
    | some c => data.set layer (L.set col (c.set row v))

/-- One `for`-loop body of `Grid::modify_in_rect` (src/lib.rs:367): look up
the cell behind `get_cell_by_indices_mut`, `continue` when absent, else
apply the mutator at those coordinates; the second component records the
coordinates at which `func` was actually invoked. -/
def modifyStep (layer : Nat) (func : Nat × Nat → V → V)
    (acc : Grid V × List (Nat × Nat)) (c : Nat × Nat) : Grid V × List (Nat × Nat) :=
  match acc.1.get_cell_by_indices c.1 c.2 layer with
  | none => acc
  | some v =>
    ({ acc.1 with data := setCell acc.1.data layer c.1 c.2 (func c v) },
      acc.2 ++ [c])

/-- Embedding of `Grid::modify_in_rect` (src/lib.rs:356), instrumented with
the list of coordinates at which the mutator was actually invoked (the
`func(coords, cell)` call sites).  The `for` loop over
`iter_coords_in_rect` is run to completion: a fresh `IterCoords` yields at
most `(top+1)*(right+1)` pairs, so the fuel below suffices. -/
def Grid.modify_in_rect (g : Grid V) (left bottom right top : ℚ)
    (layer : Nat) (func : Nat × Nat → V → V) : Grid V × List (Nat × Nat) :=
  let s := g.iter_coords_in_rect left bottom right top
  let coords := IterCoords.run ((s.top + 2) * (s.right + 2)) s
  coords.foldl (modifyStep layer func) (g, [])

/-- Cursor state of `struct IterWithCoords` (src/iter_with_coords.rs): the
wrapped iterator plus an independently tracked coordinate cursor. -/
structure IterWithCoords where
  iter : IterGridRect
  current_col : Nat
  current_row : Nat
deriving Repr, DecidableEq

/-- Embedding of `IterGridRect::enumerate_coords` (src/iter.rs:59). -/
def IterGridRect.enumerate_coords (s : IterGridRect) : IterWithCoords :=
  { iter := s, current_col := s.current_col, current_row := s.current_row }

/-- Embedding of `IterWithCoords::next` (src/iter_with_coords.rs:15): on a
successful inner `next`, capture the outer cursor, then advance it with the
inner iterator's column-wrap rule (`current_row` always increments on
wrap). -/
def IterWithCoords.next (data : List (List (List V))) (s : IterWithCoords) :
    Option (V × Nat × Nat) × IterWithCoords :=
  match IterGridRect.next data s.iter with
  | (some v, s1) =>
    let col := s.current_col
    let row := s.current_row
    let cc := col + 1
    if cc > s1.right then
      (some (v, col, row), { iter := s1, current_col := s1.left, current_row := row + 1 })
    else
      (some (v, col, row), { iter := s1, current_col := cc, current_row := row })
  | (none, s1) =>
    (none, { iter := s1, current_col := s.current_col, current_row := s.current_row })

/-- Collect the `(value, column, row)` triples of an `IterWithCoords`
traversal. -/
def IterWithCoords.run (data : List (List (List V))) :
    Nat → IterWithCoords → List (V × Nat × Nat)
  | 0, _ => []
  | fuel + 1, s =>
    match IterWithCoords.next data s with
    | (none, _) => []
    | (some v, s1) => v :: IterWithCoords.run data fuel s1

/-- Seeded single-layer storage: cell `(c, r)` holds `r * C + c`, the seeding
used by the spec's exhaustive-scan property. -/
def seedData (C R : Nat) : List (List (List Nat)) :=
  [(List.range C).map fun c => (List.range R).map fun r => r * C + c]

/-- The spec's concrete scenario: 10 by 10 grid over physical
`(0,0)-(100,100)`, uncentered, seeded with `row*10+col`. -/
def grid10 : Grid Nat :=
  { x := 0, y := 0, width := 100, height := 100, cell_width := 10
    cell_height := 10, columns := 10, rows := 10, layers := 1
    offset_x := 0, offset_y := 0, data := seedData 10 10 }

/-- A 2-column, 1-row uncentered grid. -/
def g21 : Grid Nat :=
  { x := 0, y := 0, width := 2, height := 1, cell_width := 1, cell_height := 1
    columns := 2, rows := 1, layers := 1, offset_x := 0, offset_y := 0
    data := [[[0], [1]]] }

/-- A 2 by 2 uncentered grid seeded with `row*2+col`. -/
def g22 : Grid Nat :=
  { x := 0, y := 0, width := 2, height := 2, cell_width := 1, cell_height := 1
    columns := 2, rows := 2, layers := 1, offset_x := 0, offset_y := 0
    data := seedData 2 2 }

/-- A 3-column, 2-row uncentered grid seeded with `row*3+col`. -/
def g32 : Grid Nat :=
  { x := 0, y := 0, width := 3, height := 2, cell_width := 1, cell_height := 1
    columns := 3, rows := 2, layers := 1, offset_x := 0, offset_y := 0
    data := seedData 3 2 }

/-- Active state of the ascending traversal of the rect `[l,r] × [b,t]`
after `k` cells have been yielded. -/
def stUpA (ly l r b t k : Nat) : IterGridRect :=
  { layer := ly, y_up := true, top := t, bottom := b, left := l, right := r
    current_row := b + k / (r - l + 1), current_col := l + k % (r - l + 1)
    done := false }

/-- Terminal state of the ascending traversal. -/
def stUpF (ly l r b t : Nat) : IterGridRect :=
  { layer := ly, y_up := true, top := t, bottom := b, left := l, right := r
    current_row := t + 1, current_col := l, done := true }

/-- Ascending traversal state, terminal once all
`(r-l+1)*(t-b+1)` cells are consumed. -/
def stUp (ly l r b t k : Nat) : IterGridRect :=
  if k < (r - l + 1) * (t - b + 1) then stUpA ly l r b t k else stUpF ly l r b t

/-- Active state of the descending traversal after `k` cells. -/
def stDownA (ly l r b t k : Nat) : IterGridRect :=
  { layer := ly, y_up := false, top := t, bottom := b, left := l, right := r
    current_row := t - k / (r - l + 1), current_col := l + k % (r - l + 1)
    done := false }

/-- Terminal state of the descending traversal. -/
def stDownF (ly l r b t : Nat) : IterGridRect :=
  { layer := ly, y_up := false, top := t, bottom := b, left := l, right := r
    current_row := b, current_col := l, done := true }

/-- Descending traversal state, terminal once all cells are consumed. -/
def stDown (ly l r b t k : Nat) : IterGridRect :=
  if k < (r - l + 1) * (t - b + 1) then stDownA ly l r b t k else stDownF ly l r b t

/-- Row index in scan order: how many row advances the cursor has made. -/
def scanIdx (s : IterGridRect) : Nat :=
  if s.y_up then s.current_row - s.bottom else s.top - s.current_row

/-! Case analysis of `IterGridRect.advance` and basic `next` lemmas. -/

theorem advance_frame (s : IterGridRect) :
    s.advance.left = s.left ∧ s.advance.right = s.right ∧ s.advance.top = s.top ∧
      s.advance.bottom = s.bottom ∧ s.advance.layer = s.layer ∧
      s.advance.y_up = s.y_up := by
  unfold IterGridRect.advance
  repeat' split
  all_goals simp

theorem advance_no_wrap {s : IterGridRect} (h : s.current_col + 1 ≤ s.right) :
    s.advance = { s with current_col := s.current_col + 1 } := by
  unfold IterGridRect.advance
  rw [if_neg (by omega)]

theorem advance_wrap_up {s : IterGridRect} (hup : s.y_up = true)
    (h : s.right < s.current_col + 1) (h2 : s.current_row + 1 ≤ s.top) :
    s.advance = { s with current_col := s.left, current_row := s.current_row + 1 } := by
  have h3 : ¬ s.top < s.current_row + 1 := by omega
  unfold IterGridRect.advance
  simp [h, hup, h3]

theorem advance_wrap_up_done {s : IterGridRect} (hup : s.y_up = true)
    (h : s.right < s.current_col + 1) (h2 : s.top < s.current_row + 1) :
    s.advance =
      { s with current_col := s.left, current_row := s.current_row + 1, done := true } := by
  unfold IterGridRect.advance
  simp [h, hup, h2]

theorem advance_wrap_down {s : IterGridRect} (hdn : s.y_up = false)
    (h : s.right < s.current_col + 1) (h2 : s.current_row ≠ s.bottom) :
    s.advance = { s with current_col := s.left, current_row := s.current_row - 1 } := by
  unfold IterGridRect.advance
  simp [h, hdn, h2]

theorem advance_wrap_down_done {s : IterGridRect} (hdn : s.y_up = false)
    (h : s.right < s.current_col + 1) (h2 : s.current_row = s.bottom) :
    s.advance = { s with current_col := s.left, done := true } := by
  unfold IterGridRect.advance
  simp [h, hdn, h2]

theorem loopFuel_pos (s : IterGridRect) : 0 < s.loopFuel := by
  unfold IterGridRect.loopFuel
  exact Nat.mul_pos (by omega) (by omega)

theorem nextc_done {data : List (List (List V))} {s : IterGridRect}
    (h : s.done = true) : IterGridRect.nextc data s = (none, s) := by
  unfold IterGridRect.nextc
  obtain ⟨m, hm⟩ : ∃ m, s.loopFuel = m + 1 :=
    ⟨s.loopFuel - 1, by have := loopFuel_pos s; omega⟩
  rw [hm]
  simp [IterGridRect.nextGo, h]

theorem nextc_found {data : List (List (List V))} {s : IterGridRect}
    {L : List (List V)} {col : List V} {cell : V}
    (hd : s.done = false) (h1 : data.get? s.layer = some L)
    (h2 : L.get? s.current_col = some col) (h3 : col.get? s.current_row = some cell) :
    IterGridRect.nextc data s =
      (some (cell, s.current_col, s.current_row), s.advance) := by
  unfold IterGridRect.nextc
  obtain ⟨m, hm⟩ : ∃ m, s.loopFuel = m + 1 :=
    ⟨s.loopFuel - 1, by have := loopFuel_pos s; omega⟩
  rw [hm]
  simp only [IterGridRect.nextGo, hd, Bool.false_eq_true, if_false, h1, h2, h3]

theorem next_eq (data : List (List (List V))) (s : IterGridRect) :
    IterGridRect.next data s =
      ((IterGridRect.nextc data s).1.map fun p => p.1,
        (IterGridRect.nextc data s).2) := rfl

theorem next_done {data : List (List (List V))} {s : IterGridRect}
    (h : s.done = true) : IterGridRect.next data s = (none, s) := by
  rw [next_eq, nextc_done h]
  rfl

theorem runTrace_done {data : List (List (List V))} {s : IterGridRect}
    (h : s.done = true) : ∀ fuel, IterGridRect.runTrace data fuel s = [] := by
  intro fuel
  cases fuel with
  | zero => rfl
  | succ f => simp [IterGridRect.runTrace, nextc_done h]

theorem run_eq_map_runTrace (data : List (List (List V))) :
    ∀ fuel s, IterGridRect.run data fuel s =
      (IterGridRect.runTrace data fuel s).map fun p => p.1 := by
  intro fuel
  induction fuel with
  | zero => intro s; rfl
  | succ f ih =>
    intro s
    rw [IterGridRect.run, IterGridRect.runTrace, next_eq]
    rcases hc : IterGridRect.nextc data s with ⟨o, s1⟩
    cases o with
    | none => simp
    | some v => simp [ih]

/-! Generic characterisation of fuelled runs along a chain of states. -/

theorem runTrace_of_steps (data : List (List (List V))) (m : Nat) :
    ∀ (st : Nat → IterGridRect) (v : Nat → V × Nat × Nat),
      (∀ i, i < m → IterGridRect.nextc data (st i) = (some (v i), st (i + 1))) →
      (st m).done = true → ∀ fuel, m ≤ fuel →
      IterGridRect.runTrace data fuel (st 0) = (List.range m).map v := by
  induction m with
  | zero =>
    intro st v _ hdone fuel _
    simpa using runTrace_done hdone fuel
  | succ m ih =>
    intro st v hstep hdone fuel hfuel
    obtain ⟨f, rfl⟩ : ∃ f, fuel = f + 1 := ⟨fuel - 1, by omega⟩
    have h0 := hstep 0 (by omega)
    have ihx := ih (fun i => st (i + 1)) (fun i => v (i + 1))
      (fun i hi => hstep (i + 1) (by omega)) hdone f (by omega)
    simp only [IterGridRect.runTrace, h0, ihx, List.range_succ_eq_map,
      List.map_cons, List.map_map]
    rfl

theorem iterate_of_steps (data : List (List (List V))) (m : Nat) :
    ∀ (st : Nat → IterGridRect) (v : Nat → V × Nat × Nat),
      (∀ i, i < m → IterGridRect.nextc data (st i) = (some (v i), st (i + 1))) →
      IterGridRect.iterate data m (st 0) = st m := by
  induction m with
  | zero => intro st v _; rfl
  | succ m ih =>
    intro st v hstep
    have h0 := hstep 0 (by omega)
    have ihx := ih (fun i => st (i + 1)) (fun i => v (i + 1))
      (fun i hi => hstep (i + 1) (by omega))
    simp only [IterGridRect.iterate, next_eq, h0]
    exact ihx

theorem iterate_done {data : List (List (List V))} {s : IterGridRect}
    (h : s.done = true) : ∀ n, IterGridRect.iterate data n s = s := by
  intro n
  induction n with
  | zero => rfl
  | succ n ih => simp [IterGridRect.iterate, next_done h, ih]

theorem iterate_add (data : List (List (List V))) (a b : Nat) :
    ∀ s, IterGridRect.iterate data (a + b) s =
      IterGridRect.iterate data b (IterGridRect.iterate data a s) := by
  induction a with
  | zero =>
    intro s
    rw [Nat.zero_add]
    rfl
  | succ a ih =>
    intro s
    have : a + 1 + b = (a + b) + 1 := by omega
    rw [this]
    simp only [IterGridRect.iterate]
    exact ih _

/-! Division/modulus stepping facts used by the traversal state machine. -/

theorem step_mod_lt {w k : Nat} (h : k % w + 1 < w) : (k + 1) % w = k % w + 1 := by
  have hk : k + 1 = k % w + 1 + w * (k / w) := by
    have := Nat.div_add_mod k w
    omega
  rw [hk, Nat.add_mul_mod_self_left, Nat.mod_eq_of_lt h]

theorem step_div_lt {w k : Nat} (h : k % w + 1 < w) : (k + 1) / w = k / w := by
  have hw : 0 < w := by omega
  have hk : k + 1 = k % w + 1 + w * (k / w) := by
    have := Nat.div_add_mod k w
    omega
  rw [hk, Nat.add_mul_div_left _ _ hw, Nat.div_eq_of_lt h, Nat.zero_add]

theorem step_mod_wrap {w k : Nat} (_hw : 0 < w) (h : k % w + 1 = w) :
    (k + 1) % w = 0 := by
  have hk : k + 1 = w * (k / w + 1) := by
    have := Nat.div_add_mod k w
    rw [Nat.mul_succ]
    omega
  rw [hk, Nat.mul_mod_right]

theorem step_div_wrap {w k : Nat} (hw : 0 < w) (h : k % w + 1 = w) :
    (k + 1) / w = k / w + 1 := by
  have hk : k + 1 = w * (k / w + 1) := by
    have := Nat.div_add_mod k w
    rw [Nat.mul_succ]
    omega
  rw [hk, Nat.mul_div_cancel_left _ hw]

theorem succ_lt_area {w h k : Nat} (hre : k % w + 1 < w) (hq : k / w < h) :
    k + 1 < w * h := by
  have hd := Nat.div_add_mod k w
  calc k + 1 < w * (k / w) + w := by omega
    _ = w * (k / w + 1) := by rw [Nat.mul_succ]
    _ ≤ w * h := Nat.mul_le_mul_left w hq

theorem wrap_lt_area {w h k : Nat} (hw : 0 < w) (hre : k % w + 1 = w)
    (hq : k / w + 1 < h) : k + 1 < w * h := by
  have hd := Nat.div_add_mod k w
  calc k + 1 = w * (k / w + 1) := by rw [Nat.mul_succ]; omega
    _ < w * h := (Nat.mul_lt_mul_left hw).mpr hq

theorem wrap_eq_area {w h k : Nat} (_hw : 0 < w) (hre : k % w + 1 = w)
    (hq : k / w + 1 = h) : k + 1 = w * h := by
  have hd := Nat.div_add_mod k w
  calc k + 1 = w * (k / w + 1) := by rw [Nat.mul_succ]; omega
    _ = w * h := by rw [hq]

theorem div_lt_of_lt_area {w h k : Nat} (hw : 0 < w) (hk : k < w * h) :
    k / w < h := by
  refine (Nat.div_lt_iff_lt_mul hw).mpr ?_
  exact lt_of_lt_of_le hk (le_of_eq (Nat.mul_comm w h))

/-! Advancing the canonical traversal states. -/

theorem advance_stUpA {ly l r b t k : Nat} (hlr : l ≤ r) (hbt : b ≤ t)
    (hk : k < (r - l + 1) * (t - b + 1)) :
    (stUpA ly l r b t k).advance = stUp ly l r b t (k + 1) := by
  have hw : 0 < r - l + 1 := by omega
  have hmod : k % (r - l + 1) < r - l + 1 := Nat.mod_lt _ hw
  have hdiv : k / (r - l + 1) < t - b + 1 := div_lt_of_lt_area hw hk
  by_cases hre : k % (r - l + 1) + 1 < r - l + 1
  · have hcol : (stUpA ly l r b t k).current_col + 1 ≤ (stUpA ly l r b t k).right := by
      simp only [stUpA]
      omega
    rw [advance_no_wrap hcol, stUp, if_pos (succ_lt_area hre hdiv)]
    simp only [stUpA, step_mod_lt hre, step_div_lt hre]
    congr 1
  · have hre2 : k % (r - l + 1) + 1 = r - l + 1 := by omega
    have hcol : (stUpA ly l r b t k).right < (stUpA ly l r b t k).current_col + 1 := by
      simp only [stUpA]
      omega
    by_cases hq : k / (r - l + 1) + 1 < t - b + 1
    · have hr2 : (stUpA ly l r b t k).current_row + 1 ≤ (stUpA ly l r b t k).top := by
        simp only [stUpA]
        omega
      rw [advance_wrap_up rfl hcol hr2, stUp, if_pos (wrap_lt_area hw hre2 hq)]
      simp only [stUpA, step_mod_wrap hw hre2, step_div_wrap hw hre2]
      congr 1
    · have hq2 : k / (r - l + 1) + 1 = t - b + 1 := by omega
      have hr2 : (stUpA ly l r b t k).top < (stUpA ly l r b t k).current_row + 1 := by
        simp only [stUpA]
        omega
      rw [advance_wrap_up_done rfl hcol hr2, stUp,
        if_neg (by rw [wrap_eq_area hw hre2 hq2]; omega)]
      simp only [stUpA, stUpF]
      congr 1
      all_goals omega

theorem advance_stDownA {ly l r b t k : Nat} (hlr : l ≤ r) (hbt : b ≤ t)
    (hk : k < (r - l + 1) * (t - b + 1)) :
    (stDownA ly l r b t k).advance = stDown ly l r b t (k + 1) := by
  have hw : 0 < r - l + 1 := by omega
  have hmod : k % (r - l + 1) < r - l + 1 := Nat.mod_lt _ hw
  have hdiv : k / (r - l + 1) < t - b + 1 := div_lt_of_lt_area hw hk
  by_cases hre : k % (r - l + 1) + 1 < r - l + 1
  · have hcol : (stDownA ly l r b t k).current_col + 1 ≤ (stDownA ly l r b t k).right := by
      simp only [stDownA]
      omega
    rw [advance_no_wrap hcol, stDown, if_pos (succ_lt_area hre hdiv)]
    simp only [stDownA, step_mod_lt hre, step_div_lt hre]
    congr 1
  · have hre2 : k % (r - l + 1) + 1 = r - l + 1 := by omega
    have hcol : (stDownA ly l r b t k).right < (stDownA ly l r b t k).current_col + 1 := by
      simp only [stDownA]
      omega
    by_cases hq : k / (r - l + 1) + 1 < t - b + 1
    · have hr2 : (stDownA ly l r b t k).current_row ≠ (stDownA ly l r b t k).bottom := by
        simp only [stDownA]
        omega
      rw [advance_wrap_down rfl hcol hr2, stDown, if_pos (wrap_lt_area hw hre2 hq)]
      simp only [stDownA, step_mod_wrap hw hre2, step_div_wrap hw hre2]
      congr 1
    · have hq2 : k / (r - l + 1) + 1 = t - b + 1 := by omega
      have hr2 : (stDownA ly l r b t k).current_row = (stDownA ly l r b t k).bottom := by
        simp only [stDownA]
        omega
      rw [advance_wrap_down_done rfl hcol hr2, stDown,
        if_neg (by rw [wrap_eq_area hw hre2 hq2]; omega)]
      simp only [stDownA, stDownF]
      congr 1

/-! Running the iterator over a fully populated rectangle. -/

theorem lookup_chain {data : List (List (List V))} {ly c p : Nat} {v : V}
    (h : lookup data ly c p = some v) :
    ∃ L col, data.get? ly = some L ∧ L.get? c = some col ∧ col.get? p = some v := by
  unfold lookup at h
  rcases hL : data.get? ly with _ | L
  · rw [hL] at h
    simp at h
  · rw [hL] at h
    simp only [Option.some_bind] at h
    rcases hc : L.get? c with _ | col
    · rw [hc] at h
      simp at h
    · rw [hc] at h
      simp only [Option.some_bind] at h
      exact ⟨L, col, rfl, hc, h⟩

theorem nextc_stUpA {data : List (List (List V))} {f : Nat → Nat → V}
    {ly l r b t k : Nat} (hlr : l ≤ r) (hbt : b ≤ t)
    (Hlook : ∀ c p, l ≤ c → c ≤ r → b ≤ p → p ≤ t → lookup data ly c p = some (f c p))
    (hk : k < (r - l + 1) * (t - b + 1)) :
    IterGridRect.nextc data (stUpA ly l r b t k) =
      (some (f (l + k % (r - l + 1)) (b + k / (r - l + 1)),
          l + k % (r - l + 1), b + k / (r - l + 1)),
        stUp ly l r b t (k + 1)) := by
  have hw : 0 < r - l + 1 := by omega
  have hmod : k % (r - l + 1) < r - l + 1 := Nat.mod_lt _ hw
  have hdiv : k / (r - l + 1) < t - b + 1 := div_lt_of_lt_area hw hk
  have hl := Hlook (l + k % (r - l + 1)) (b + k / (r - l + 1))
    (Nat.le_add_right _ _) (by omega) (Nat.le_add_right _ _) (by omega)
  obtain ⟨L, col, h1, h2, h3⟩ := lookup_chain hl
  rw [nextc_found rfl h1 h2 h3, advance_stUpA hlr hbt hk]
  rfl

theorem nextc_stDownA {data : List (List (List V))} {f : Nat → Nat → V}
    {ly l r b t k : Nat} (hlr : l ≤ r) (hbt : b ≤ t)
    (Hlook : ∀ c p, l ≤ c → c ≤ r → b ≤ p → p ≤ t → lookup data ly c p = some (f c p))
    (hk : k < (r - l + 1) * (t - b + 1)) :
    IterGridRect.nextc data (stDownA ly l r b t k) =
      (some (f (l + k % (r - l + 1)) (t - k / (r - l + 1)),
          l + k % (r - l + 1), t - k / (r - l + 1)),
        stDown ly l r b t (k + 1)) := by
  have hw : 0 < r - l + 1 := by omega
  have hmod : k % (r - l + 1) < r - l + 1 := Nat.mod_lt _ hw
  have hdiv : k / (r - l + 1) < t - b + 1 := div_lt_of_lt_area hw hk
  have hl := Hlook (l + k % (r - l + 1)) (t - k / (r - l + 1))
    (Nat.le_add_right _ _) (by omega) (Nat.le_sub_of_add_le (by omega)) (Nat.sub_le _ _)
  obtain ⟨L, col, h1, h2, h3⟩ := lookup_chain hl
  rw [nextc_found rfl h1 h2 h3, advance_stDownA hlr hbt hk]
  rfl

theorem area_pos (l r b t : Nat) : 0 < (r - l + 1) * (t - b + 1) :=
  Nat.mul_pos (by omega) (by omega)

theorem runTrace_stUp {data : List (List (List V))} {f : Nat → Nat → V}
    {ly l r b t : Nat} (hlr : l ≤ r) (hbt : b ≤ t)
    (Hlook : ∀ c p, l ≤ c → c ≤ r → b ≤ p → p ≤ t → lookup data ly c p = some (f c p)) :
    ∀ fuel, (r - l + 1) * (t - b + 1) ≤ fuel →
      IterGridRect.runTrace data fuel (stUpA ly l r b t 0) =
        (List.range ((r - l + 1) * (t - b + 1))).map
          (fun k => (f (l + k % (r - l + 1)) (b + k / (r - l + 1)),
            l + k % (r - l + 1), b + k / (r - l + 1))) := by
  intro fuel hfuel
  have h0 : stUp ly l r b t 0 = stUpA ly l r b t 0 := by
    rw [stUp, if_pos (area_pos l r b t)]
  rw [← h0]
  refine runTrace_of_steps data _ (stUp ly l r b t) _ ?_ ?_ fuel hfuel
  · intro i hi
    have hsi : stUp ly l r b t i = stUpA ly l r b t i := by rw [stUp, if_pos hi]
    rw [hsi, nextc_stUpA hlr hbt Hlook hi]
  · rw [stUp, if_neg (by omega)]
    rfl

theorem runTrace_stDown {data : List (List (List V))} {f : Nat → Nat → V}
    {ly l r b t : Nat} (hlr : l ≤ r) (hbt : b ≤ t)
    (Hlook : ∀ c p, l ≤ c → c ≤ r → b ≤ p → p ≤ t → lookup data ly c p = some (f c p)) :
    ∀ fuel, (r - l + 1) * (t - b + 1) ≤ fuel →
      IterGridRect.runTrace data fuel (stDownA ly l r b t 0) =
        (List.range ((r - l + 1) * (t - b + 1))).map
          (fun k => (f (l + k % (r - l + 1)) (t - k / (r - l + 1)),
            l + k % (r - l + 1), t - k / (r - l + 1))) := by
  intro fuel hfuel
  have h0 : stDown ly l r b t 0 = stDownA ly l r b t 0 := by
    rw [stDown, if_pos (area_pos l r b t)]
  rw [← h0]
  refine runTrace_of_steps data _ (stDown ly l r b t) _ ?_ ?_ fuel hfuel
  · intro i hi
    have hsi : stDown ly l r b t i = stDownA ly l r b t i := by rw [stDown, if_pos hi]
    rw [hsi, nextc_stDownA hlr hbt Hlook hi]
  · rw [stDown, if_neg (by omega)]
    rfl

theorem iterate_stUp {data : List (List (List V))} {f : Nat → Nat → V}
    {ly l r b t : Nat} (hlr : l ≤ r) (hbt : b ≤ t)
    (Hlook : ∀ c p, l ≤ c → c ≤ r → b ≤ p → p ≤ t → lookup data ly c p = some (f c p)) :
    IterGridRect.iterate data ((r - l + 1) * (t - b + 1)) (stUpA ly l r b t 0) =
      stUpF ly l r b t := by
  have h0 : stUp ly l r b t 0 = stUpA ly l r b t 0 := by
    rw [stUp, if_pos (area_pos l r b t)]
  rw [← h0]
  have h1 := iterate_of_steps data ((r - l + 1) * (t - b + 1))
    (stUp ly l r b t)
    (fun k => (f (l + k % (r - l + 1)) (b + k / (r - l + 1)),
      l + k % (r - l + 1), b + k / (r - l + 1)))
    (fun i hi => by
      have hsi : stUp ly l r b t i = stUpA ly l r b t i := by rw [stUp, if_pos hi]
      rw [hsi, nextc_stUpA hlr hbt Hlook hi])
  rw [h1, stUp, if_neg (by omega)]

theorem iterate_stDown {data : List (List (List V))} {f : Nat → Nat → V}
    {ly l r b t : Nat} (hlr : l ≤ r) (hbt : b ≤ t)
    (Hlook : ∀ c p, l ≤ c → c ≤ r → b ≤ p → p ≤ t → lookup data ly c p = some (f c p)) :
    IterGridRect.iterate data ((r - l + 1) * (t - b + 1)) (stDownA ly l r b t 0) =
      stDownF ly l r b t := by
  have h0 : stDown ly l r b t 0 = stDownA ly l r b t 0 := by
    rw [stDown, if_pos (area_pos l r b t)]
  rw [← h0]
  have h1 := iterate_of_steps data ((r - l + 1) * (t - b + 1))
    (stDown ly l r b t)
    (fun k => (f (l + k % (r - l + 1)) (t - k / (r - l + 1)),
      l + k % (r - l + 1), t - k / (r - l + 1)))
    (fun i hi => by
      have hsi : stDown ly l r b t i = stDownA ly l r b t i := by rw [stDown, if_pos hi]
      rw [hsi, nextc_stDownA hlr hbt Hlook hi])
  rw [h1, stDown, if_neg (by omega)]

/-! List reshaping: a length-`w*h` range as `h` blocks of width `w`. -/

theorem range_mul_flatMap {A : Type} (w h : Nat) (v : Nat → A) :
    (List.range (w * h)).map v =
      (List.range h).flatMap
        (fun q => (List.range w).map (fun rem => v (q * w + rem))) := by
  induction h with
  | zero => simp
  | succ h ih =>
    rw [Nat.mul_succ, List.range_add, List.map_append, ih, List.range_succ,
      List.flatMap_append]
    simp only [List.map_map, List.flatMap_singleton, Function.comp_def,
      Nat.mul_comm w h]

theorem flatMap_congr_left {A B : Type} {l : List A} {f g : A → List B}
    (h : ∀ a ∈ l, f a = g a) : l.flatMap f = l.flatMap g := by
  induction l with
  | nil => rfl
  | cons a l ih =>
    simp only [List.flatMap_cons, h a (List.mem_cons_self a l)]
    rw [ih fun x hx => h x (List.mem_cons_of_mem a hx)]

theorem reverse_range (R : Nat) :
    (List.range R).reverse = (List.range R).map (fun i => R - 1 - i) := by
  rw [List.range_eq_range', List.reverse_range', ← List.range_eq_range']
  simp only [Nat.zero_add]

/-- Claim C1.  On a grid whose layer 0 is seeded with `row*columns+col` and a
query rectangle that resolves to the full grid, the ascending scan enumerates
`0, 1, ..., columns*rows - 1` in exact sequence, and after `y_down()` the same
values come in reverse row-major order (top row first, columns still left to
right). -/
theorem C1_full_grid_scan (C R : Nat) (g : Grid Nat) (hC : 0 < C) (hR : 0 < R)
    (hseed : ∀ c p, c < C → p < R → lookup g.data 0 c p = some (p * C + c))
    (pl pb pr pt : ℚ)
    (hedges : g.get_edges pl pb pr pt = (0, 0, C - 1, R - 1)) :
    (∀ fuel, C * R ≤ fuel →
      IterGridRect.run g.data fuel (g.iter_cells_in_rect pl pb pr pt 0) =
        List.range (C * R)) ∧
    (∀ sd, (g.iter_cells_in_rect pl pb pr pt 0).y_down = some sd →
      ∀ fuel, C * R ≤ fuel →
        IterGridRect.run g.data fuel sd =
          (List.range R).reverse.flatMap
            (fun p => (List.range C).map (fun c => p * C + c))) ∧
    ((g.iter_cells_in_rect pl pb pr pt 0).y_down).isSome = true := by
  have hw1 : C - 1 - 0 + 1 = C := by omega
  have hh1 : R - 1 - 0 + 1 = R := by omega
  have hlr : (0 : Nat) ≤ C - 1 := Nat.zero_le _
  have hbt : (0 : Nat) ≤ R - 1 := Nat.zero_le _
  have Hlook : ∀ c p, 0 ≤ c → c ≤ C - 1 → 0 ≤ p → p ≤ R - 1 →
      lookup g.data 0 c p = some (p * C + c) := by
    intro c p _ hc _ hp
    exact hseed c p (by omega) (by omega)
  have hs0 : g.iter_cells_in_rect pl pb pr pt 0 = stUpA 0 0 (C - 1) 0 (R - 1) 0 := by
    simp only [Grid.iter_cells_in_rect, hedges, stUpA, Nat.zero_mod, Nat.zero_div,
      Nat.add_zero]
  refine ⟨?_, ?_, ?_⟩
  · intro fuel hfuel
    rw [hs0, run_eq_map_runTrace,
      runTrace_stUp hlr hbt Hlook fuel (by rw [hw1, hh1]; exact hfuel)]
    rw [List.map_map, hw1, hh1]
    have hpt : ∀ k ∈ List.range (C * R),
        ((fun p => p.1) ∘ fun k =>
          ((0 + k / C) * C + (0 + k % C), 0 + k % C, 0 + k / C)) k = k := by
      intro k _
      have hd := Nat.div_add_mod k C
      simp only [Function.comp_apply, Nat.zero_add]
      rw [Nat.mul_comm]
      omega
    rw [List.map_congr_left hpt]
    exact List.map_id _
  · intro sd hsd fuel hfuel
    rw [hs0] at hsd
    have hcond : (stUpA 0 0 (C - 1) 0 (R - 1) 0).current_row =
        (stUpA 0 0 (C - 1) 0 (R - 1) 0).bottom := by
      simp [stUpA, Nat.zero_div]
    rw [IterGridRect.y_down, if_pos hcond] at hsd
    have hsd2 : sd = stDownA 0 0 (C - 1) 0 (R - 1) 0 := by
      rw [← Option.some.inj hsd]
      simp only [stUpA, stDownA, Nat.zero_mod, Nat.zero_div, Nat.add_zero, Nat.sub_zero]
    rw [hsd2, run_eq_map_runTrace,
      runTrace_stDown hlr hbt Hlook fuel (by rw [hw1, hh1]; exact hfuel)]
    rw [List.map_map, hw1, hh1]
    rw [reverse_range, List.flatMap_map, range_mul_flatMap]
    refine flatMap_congr_left ?_
    intro q hq
    have hqR : q < R := List.mem_range.mp hq
    refine List.map_congr_left ?_
    intro rem hrem
    have hremC : rem < C := List.mem_range.mp hrem
    have h1 : (q * C + rem) / C = q := by
      rw [Nat.mul_comm q C, Nat.mul_add_div hC, Nat.div_eq_of_lt hremC, Nat.add_zero]
    have h2 : (q * C + rem) % C = rem := by
      rw [Nat.mul_comm q C, Nat.mul_add_mod, Nat.mod_eq_of_lt hremC]
    simp only [Function.comp_apply, h1, h2, Nat.zero_add]
  · have hcond : (stUpA 0 0 (C - 1) 0 (R - 1) 0).current_row =
        (stUpA 0 0 (C - 1) 0 (R - 1) 0).bottom := by
      simp [stUpA, Nat.zero_div]
    rw [hs0, IterGridRect.y_down, if_pos hcond]
    rfl

/-- Witness for C1: the 3 by 2 seeded grid scanned over its full extent yields
`[0,1,2,3,4,5]` ascending and `[3,4,5,0,1,2]` after `y_down()`. -/
theorem C1_witness :
    IterGridRect.run g32.data 6 (g32.iter_cells_in_rect 0 0 3 2 0) = List.range 6 ∧
    Option.map (IterGridRect.run g32.data 6) ((g32.iter_cells_in_rect 0 0 3 2 0).y_down) =
      some [3, 4, 5, 0, 1, 2] := by
  have hseed : ∀ c p, c < 3 → p < 2 → lookup g32.data 0 c p = some (p * 3 + c) := by
    intro c p hc hp
    interval_cases c <;> interval_cases p <;> rfl
  have hedges : g32.get_edges 0 0 3 2 = (0, 0, 3 - 1, 2 - 1) := by
    simp [Grid.get_edges, g32]
  have h := C1_full_grid_scan 3 2 g32 (by omega) (by omega) hseed 0 0 3 2 hedges
  constructor
  · simpa using h.1 6 (by omega)
  · rcases hy : (g32.iter_cells_in_rect 0 0 3 2 0).y_down with _ | sd
    · rw [hy] at h
      simp at h
    · rw [Option.map_some', h.2.1 sd hy 6 (by omega)]
      decide

/-- Claim C2.  For resolved bounds `l ≤ r`, `b ≤ t`, a valid layer and fully
populated data, the rect iterator yields exactly `(r-l+1)*(t-b+1)` elements
and then yields `none` forever, in both scan directions, and every `advance`
from an in-range live cursor either terminates the iterator or strictly
increases the lexicographic pair (row-in-scan-order, column). -/
theorem C2_rect_iteration (data : List (List (List V))) (f : Nat → Nat → V)
    (ly l r b t : Nat) (hlr : l ≤ r) (hbt : b ≤ t)
    (Hlook : ∀ c p, l ≤ c → c ≤ r → b ≤ p → p ≤ t → lookup data ly c p = some (f c p)) :
    (∀ fuel, (r - l + 1) * (t - b + 1) ≤ fuel →
      (IterGridRect.run data fuel (stUpA ly l r b t 0)).length =
        (r - l + 1) * (t - b + 1)) ∧
    (∀ n, (IterGridRect.next data (IterGridRect.iterate data
        ((r - l + 1) * (t - b + 1) + n) (stUpA ly l r b t 0))).1 = none) ∧
    (∀ sd, (stUpA ly l r b t 0).y_down = some sd →
      (∀ fuel, (r - l + 1) * (t - b + 1) ≤ fuel →
        (IterGridRect.run data fuel sd).length = (r - l + 1) * (t - b + 1)) ∧
      (∀ n, (IterGridRect.next data (IterGridRect.iterate data
          ((r - l + 1) * (t - b + 1) + n) sd)).1 = none)) ∧
    (∀ s : IterGridRect, s.done = false →
      s.left = l → s.right = r → s.bottom = b → s.top = t →
      l ≤ s.current_col → s.current_col ≤ r → b ≤ s.current_row → s.current_row ≤ t →
      s.advance.done = true ∨
        scanIdx s < scanIdx s.advance ∨
          (scanIdx s.advance = scanIdx s ∧ s.current_col < s.advance.current_col)) := by
  refine ⟨?_, ?_, ?_, ?_⟩
  · intro fuel hfuel
    rw [run_eq_map_runTrace, runTrace_stUp hlr hbt Hlook fuel hfuel]
    simp
  · intro n
    rw [iterate_add, iterate_stUp hlr hbt Hlook, iterate_done rfl, next_done rfl]
  · intro sd hsd
    have hcond : (stUpA ly l r b t 0).current_row = (stUpA ly l r b t 0).bottom := by
      simp [stUpA, Nat.zero_div]
    rw [IterGridRect.y_down, if_pos hcond] at hsd
    have hsd2 : sd = stDownA ly l r b t 0 := by
      rw [← Option.some.inj hsd]
      simp only [stUpA, stDownA, Nat.zero_mod, Nat.zero_div, Nat.add_zero, Nat.sub_zero]
    subst hsd2
    constructor
    · intro fuel hfuel
      rw [run_eq_map_runTrace, runTrace_stDown hlr hbt Hlook fuel hfuel]
      simp
    · intro n
      rw [iterate_add, iterate_stDown hlr hbt Hlook, iterate_done rfl, next_done rfl]
  · intro s hd hL hR hB hT h1 h2 h3 h4
    cases hu : s.y_up
    · by_cases hc : s.current_col + 1 ≤ s.right
      · rw [advance_no_wrap hc]
        right
        right
        constructor
        · simp [scanIdx]
        · simp
      · by_cases hrow : s.current_row = s.bottom
        · rw [advance_wrap_down_done hu (by omega) hrow]
          left
          rfl
        · rw [advance_wrap_down hu (by omega) hrow]
          right
          left
          simp [scanIdx, hu]
          omega
    · by_cases hc : s.current_col + 1 ≤ s.right
      · rw [advance_no_wrap hc]
        right
        right
        constructor
        · simp [scanIdx]
        · simp
      · by_cases hrow : s.current_row + 1 ≤ s.top
        · rw [advance_wrap_up hu (by omega) hrow]
          right
          left
          simp [scanIdx, hu]
          omega
        · rw [advance_wrap_up_done hu (by omega) (by omega)]
          left
          rfl

/-- Witness for C2 on the 3 by 2 seeded grid: 6 elements ascending, `none`
afterwards, and a strictly increasing advance from the start state. -/
theorem C2_witness :
    (IterGridRect.run (seedData 3 2) 6 (stUpA 0 0 2 0 1 0)).length = 6 ∧
    (IterGridRect.next (seedData 3 2)
      (IterGridRect.iterate (seedData 3 2) 6 (stUpA 0 0 2 0 1 0))).1 = none ∧
    ((stUpA 0 0 2 0 1 0).advance.done = true ∨
      scanIdx (stUpA 0 0 2 0 1 0) < scanIdx (stUpA 0 0 2 0 1 0).advance ∨
        (scanIdx (stUpA 0 0 2 0 1 0).advance = scanIdx (stUpA 0 0 2 0 1 0) ∧
          (stUpA 0 0 2 0 1 0).current_col < (stUpA 0 0 2 0 1 0).advance.current_col)) := by
  have hseed : ∀ c p, 0 ≤ c → c ≤ 2 → 0 ≤ p → p ≤ 1 →
      lookup (seedData 3 2) 0 c p = some (p * 3 + c) := by
    intro c p _ hc _ hp
    interval_cases c <;> interval_cases p <;> rfl
  have h := C2_rect_iteration (seedData 3 2) (fun c p => p * 3 + c) 0 0 2 0 1
    (by omega) (by omega) hseed
  refine ⟨by simpa using h.1 6 (by norm_num), by simpa using h.2.1 0, ?_⟩
  exact h.2.2.2 (stUpA 0 0 2 0 1 0) rfl rfl rfl rfl rfl (by simp [stUpA])
    (by simp [stUpA]) (by simp [stUpA]) (by simp [stUpA, Nat.zero_div])

/-- Claim C3.  The coordinate mapper returns `none` exactly when a
translated coordinate is negative; otherwise it floors with no upper clamp
(the cast to `usize` is lossless there when the cell size is positive), the
upper bound being filtered only by the indexed accessor — a column index at
or beyond `columns` and likewise a row index at or beyond `rows` both make
the accessor return `none`; and on an uncentered grid the point `(-10, 20)`
maps to an absent cell. -/
theorem C3_get_cell_coords (g : Grid V) (x y : ℚ) :
    (g.get_cell_coords x y = none ↔ x + g.offset_x < 0 ∨ y + g.offset_y < 0) ∧
    (0 ≤ x + g.offset_x → 0 ≤ y + g.offset_y →
      g.get_cell_coords x y =
        some ((Int.floor ((x + g.offset_x) / g.cell_width)).toNat,
          (Int.floor ((y + g.offset_y) / g.cell_height)).toNat)) ∧
    (0 < g.cell_width → 0 ≤ x + g.offset_x →
      ((Int.floor ((x + g.offset_x) / g.cell_width)).toNat : ℤ) =
        Int.floor ((x + g.offset_x) / g.cell_width)) ∧
    (∀ col row ly, (∀ L ∈ g.data, L.length = g.columns) → g.columns ≤ col →
      g.get_cell_by_indices col row ly = none) ∧
    (g.offset_x = 0 → g.offset_y = 0 → g.get_cell_coords (-10) 20 = none) ∧
    (∀ col row ly, (∀ L ∈ g.data, ∀ cl ∈ L, cl.length = g.rows) → g.rows ≤ row →
      g.get_cell_by_indices col row ly = none) := by
  refine ⟨?_, ?_, ?_, ?_, ?_, ?_⟩
  · unfold Grid.get_cell_coords
    by_cases h1 : x + g.offset_x < 0
    · simp [h1]
    · by_cases h2 : y + g.offset_y < 0
      · simp [h1, h2]
      · simp [h1, h2]
  · intro hx hy
    unfold Grid.get_cell_coords
    rw [if_neg (not_lt.mpr hx), if_neg (not_lt.mpr hy)]
  · intro hcw hx
    exact Int.toNat_of_nonneg (Int.floor_nonneg.mpr (div_nonneg hx (le_of_lt hcw)))
  · intro col row ly hlen hcol
    unfold Grid.get_cell_by_indices lookup
    rcases hL : g.data.get? ly with _ | L
    · rfl
    · have hmem : L ∈ g.data := List.get?_mem hL
      have hnone : L.get? col = none := by
        rw [List.get?_eq_none, hlen L hmem]
        exact hcol
      simp only [Option.some_bind]
      rw [hnone]
      rfl
  · intro h1 h2
    unfold Grid.get_cell_coords
    rw [h1, if_pos (by norm_num)]
  · intro col row ly hshape hrow
    unfold Grid.get_cell_by_indices lookup
    rcases hL : g.data.get? ly with _ | L
    · rfl
    · have hmemL : L ∈ g.data := List.get?_mem hL
      simp only [Option.some_bind]
      rcases hc : L.get? col with _ | cl
      · rfl
      · have hmemc : cl ∈ L := List.get?_mem hc
        simp only [Option.some_bind]
        rw [List.get?_eq_none, hshape L hmemL cl hmemc]
        exact hrow

/-- Witness for C3 on the 10 by 10 uncentered grid: `(15,15)` maps to cell
`(1,1)` and `(-10,20)` maps to `none`. -/
theorem C3_witness :
    grid10.get_cell_coords 15 15 = some (1, 1) ∧
    grid10.get_cell_coords (-10) 20 = none := by
  constructor
  · have h := (C3_get_cell_coords grid10 15 15).2.1
      (by norm_num [grid10]) (by norm_num [grid10])
    rw [h]
    norm_num [grid10]
  · exact (C3_get_cell_coords grid10 (-10) 20).2.2.2.2.1 rfl rfl

/-- Claim C4.  For a constructed grid (positive cell counts), the edge
resolver always returns four inclusive bounds inside
`[0, columns-1] × [0, rows-1]`; the embedding is total, mirroring the
absence of panic sites in the source once `columns, rows > 0`. -/
theorem C4_get_edges_bounds (g : Grid V) (pl pb pr pt : ℚ)
    (_hcols : 0 < g.columns) (_hrows : 0 < g.rows) :
    (g.get_edges pl pb pr pt).1 ≤ g.columns - 1 ∧
    (g.get_edges pl pb pr pt).2.1 ≤ g.rows - 1 ∧
    (g.get_edges pl pb pr pt).2.2.1 ≤ g.columns - 1 ∧
    (g.get_edges pl pb pr pt).2.2.2 ≤ g.rows - 1 := by
  unfold Grid.get_edges
  exact ⟨Nat.min_le_right _ _, Nat.min_le_right _ _,
    Nat.min_le_right _ _, Nat.min_le_right _ _⟩

/-- Witness for C4: concrete out-of-range rectangle on the 10 by 10 grid. -/
theorem C4_witness :
    (grid10.get_edges (-25) (-25) 125 125).1 ≤ 9 ∧
    (grid10.get_edges (-25) (-25) 125 125).2.1 ≤ 9 ∧
    (grid10.get_edges (-25) (-25) 125 125).2.2.1 ≤ 9 ∧
    (grid10.get_edges (-25) (-25) 125 125).2.2.2 ≤ 9 :=
  C4_get_edges_bounds grid10 (-25) (-25) 125 125 (by decide) (by decide)

/-- Claim C5.  On the spec's 10 by 10 grid over `(0,0)-(100,100)`, the
rectangle `(-25,-25)-(5,5)` resolves to the single corner cell `(0,0)` and
iteration yields exactly its (seeded, hence identifying) value `0`; the
rectangle `(95,95)-(125,125)` yields exactly cell `(9,9)` (value `99`);
both computations are total. -/
theorem C5_out_of_bounds_rects :
    grid10.get_edges (-25) (-25) 5 5 = (0, 0, 0, 0) ∧
    IterGridRect.run grid10.data 5 (grid10.iter_cells_in_rect (-25) (-25) 5 5 0) = [0] ∧
    grid10.get_edges 95 95 125 125 = (9, 9, 9, 9) ∧
    IterGridRect.run grid10.data 5 (grid10.iter_cells_in_rect 95 95 125 125 0) = [99] := by
  have he1 : grid10.get_edges (-25) (-25) 5 5 = (0, 0, 0, 0) := by
    norm_num [Grid.get_edges, grid10]
  have he2 : grid10.get_edges 95 95 125 125 = (9, 9, 9, 9) := by
    norm_num [Grid.get_edges, grid10]
    decide
  have hs1 : grid10.iter_cells_in_rect (-25) (-25) 5 5 0 =
      ⟨0, true, 0, 0, 0, 0, 0, 0, false⟩ := by
    rw [Grid.iter_cells_in_rect, he1]
  have hs2 : grid10.iter_cells_in_rect 95 95 125 125 0 =
      ⟨0, true, 9, 9, 9, 9, 9, 9, false⟩ := by
    rw [Grid.iter_cells_in_rect, he2]
  refine ⟨he1, ?_, he2, ?_⟩
  · rw [hs1]
    decide
  · rw [hs2]
    decide

/-- Claim C7 (code bug).  `Grid::new` computes
`cell_height = height / columns` (not `height / rows`) and
`offset_y = width / 2` (not `height / 2`): at
`new(width=100, height=50, columns=10, rows=5, layers=1)` the embedding of
the source yields `cell_height = 5` and `offset_y = 50`, while
`height / rows = 10` and `height / 2 = 25`. -/
theorem C7_new_cell_height_bug :
    ((Grid.new? (V := Nat) 100 50 10 5 1 fun _ => 0).map
        fun g => (g.cell_height, g.offset_y)) = some (5, 50) ∧
    (50 : ℚ) / 5 = 10 ∧ (50 : ℚ) / 2 = 25 ∧
    ((5 : ℚ) ≠ 10) ∧ ((50 : ℚ) ≠ 25) := by
  refine ⟨?_, by norm_num, by norm_num, by norm_num, by norm_num⟩
  rw [Grid.new?, if_pos (by norm_num)]
  rw [Option.map_some']
  norm_num

/-- Claim C8, corrected.  `y_down` succeeds exactly when the cursor row
still equals `bottom`: that holds for a freshly created iterator, but also
after consuming elements that have not yet wrapped past the first scan row,
so consumption alone does not trigger the precondition check. -/
theorem C8_y_down_amended :
    (∀ s : IterGridRect, (IterGridRect.y_down s).isSome = true ↔
      s.current_row = s.bottom) ∧
    (∀ (g : Grid V) (pl pb pr pt : ℚ) (ly : Nat),
      ((g.iter_cells_in_rect pl pb pr pt ly).y_down).isSome = true) := by
  constructor
  · intro s
    unfold IterGridRect.y_down
    by_cases h : s.current_row = s.bottom
    · simp [h]
    · simp [h]
  · intro g pl pb pr pt ly
    unfold Grid.iter_cells_in_rect IterGridRect.y_down
    simp

/-- Counterexample to C8 as stated: on a 2-column, 1-row grid, one element
is consumed via `next`, yet `y_down()` still succeeds (no precondition
violation), because the cursor is still on the bottom row. -/
theorem C8_counterexample :
    (IterGridRect.next g21.data (g21.iter_cells_in_rect 0 0 2 1 0)).1 = some 0 ∧
    (((IterGridRect.next g21.data (g21.iter_cells_in_rect 0 0 2 1 0)).2).y_down).isSome =
      true := by
  have he : g21.get_edges 0 0 2 1 = (0, 0, 1, 0) := by
    norm_num [Grid.get_edges, g21]
  have hs : g21.iter_cells_in_rect 0 0 2 1 0 = ⟨0, true, 0, 0, 0, 1, 0, 0, false⟩ := by
    rw [Grid.iter_cells_in_rect, he]
  rw [hs]
  decide

/-! Coordinate iterator basics, for `modify_in_rect`. -/

theorem IterCoords.run_done {s : IterCoords} (h : s.done = true) :
    ∀ fuel, IterCoords.run fuel s = [] := by
  intro fuel
  cases fuel with
  | zero => rfl
  | succ f => simp [IterCoords.run, IterCoords.next, h]

theorem modifyStep_none {ly : Nat} {func : Nat × Nat → V → V}
    {acc : Grid V × List (Nat × Nat)} {c : Nat × Nat}
    (h : acc.1.get_cell_by_indices c.1 c.2 ly = none) :
    modifyStep ly func acc c = acc := by
  unfold modifyStep
  rw [h]

/-- Claim C10 (frame property).  `modify_in_rect` with a layer index at or
beyond the layer count never invokes the mutator and returns the grid
completely unchanged (data and all metadata), without a panic: the
out-of-range layer is silently skipped. -/
theorem C10_invalid_layer_frame (g : Grid V) (pl pb pr pt : ℚ) (ly : Nat)
    (func : Nat × Nat → V → V) (hly : g.layers ≤ ly)
    (hlen : g.data.length = g.layers) :
    g.modify_in_rect pl pb pr pt ly func = (g, []) := by
  have hnone : ∀ c r, g.get_cell_by_indices c r ly = none := by
    intro c r
    unfold Grid.get_cell_by_indices lookup
    have hd : g.data.get? ly = none := by
      rw [List.get?_eq_none]
      omega
    rw [hd]
    rfl
  have haux : ∀ cs : List (Nat × Nat),
      List.foldl (modifyStep ly func) (g, []) cs = (g, []) := by
    intro cs
    induction cs with
    | nil => rfl
    | cons c cs ih =>
      rw [List.foldl_cons, modifyStep_none (hnone c.1 c.2)]
      exact ih
  unfold Grid.modify_in_rect
  exact haux _

/-- Witness for C10: modifying layer 5 of the single-layer 10 by 10 grid
does nothing. -/
theorem C10_witness :
    grid10.modify_in_rect 3 3 44 44 5 (fun _ v => v + 100) = (grid10, []) :=
  C10_invalid_layer_frame grid10 3 3 44 44 5 (fun _ v => v + 100)
    (by decide) (by decide)

/-- Claim C6.  When all four resolved edges fall in the single cell
`(c, p)` of a well-formed grid and the layer is valid, `modify_in_rect`
invokes the mutator exactly once, at `(c, p)`. -/
theorem C6_single_cell_modify (g : Grid V) (pl pb pr pt : ℚ) (ly c p : Nat)
    (func : Nat × Nat → V → V)
    (he : g.get_edges pl pb pr pt = (c, p, c, p))
    (hcols : 0 < g.columns) (hrows : 0 < g.rows)
    (hly : ly < g.data.length)
    (hshape : ∀ L ∈ g.data, L.length = g.columns ∧ ∀ col ∈ L, col.length = g.rows) :
    (g.modify_in_rect pl pb pr pt ly func).2 = [(c, p)] := by
  have hb1 : (g.get_edges pl pb pr pt).1 ≤ g.columns - 1 := by
    unfold Grid.get_edges
    exact Nat.min_le_right _ _
  have hb2 : (g.get_edges pl pb pr pt).2.2.2 ≤ g.rows - 1 := by
    unfold Grid.get_edges
    exact Nat.min_le_right _ _
  rw [he] at hb1 hb2
  simp only [] at hb1 hb2
  have hc : c < g.columns := by omega
  have hp : p < g.rows := by omega
  rcases hL : g.data.get? ly with _ | L
  · rw [List.get?_eq_none] at hL
    omega
  · have hmemL : L ∈ g.data := List.get?_mem hL
    obtain ⟨hlenL, hcolsL⟩ := hshape L hmemL
    rcases hcc : L.get? c with _ | col
    · rw [List.get?_eq_none, hlenL] at hcc
      omega
    · have hmemc : col ∈ L := List.get?_mem hcc
      rcases hv : col.get? p with _ | v
      · rw [List.get?_eq_none, hcolsL col hmemc] at hv
        omega
      · have hsome : g.get_cell_by_indices c p ly = some v := by
          unfold Grid.get_cell_by_indices lookup
          rw [hL]
          simp only [Option.some_bind]
          rw [hcc]
          simp only [Option.some_bind]
          exact hv
        have hs0 : g.iter_coords_in_rect pl pb pr pt =
            ⟨true, p, p, c, c, p, c, false⟩ := by
          rw [Grid.iter_coords_in_rect, he]
        have hnx : IterCoords.next ⟨true, p, p, c, c, p, c, false⟩ =
            (some (c, p), ⟨true, p, p, c, c, p + 1, c, true⟩) := by
          unfold IterCoords.next IterCoords.advance
          norm_num
        have hrun : ∀ m, IterCoords.run (m + 1)
            (⟨true, p, p, c, c, p, c, false⟩ : IterCoords) = [(c, p)] := by
          intro m
          simp only [IterCoords.run, hnx]
          rw [IterCoords.run_done rfl]
        obtain ⟨m, hm⟩ : ∃ m, (p + 2) * (c + 2) = m + 1 :=
          ⟨(p + 2) * (c + 2) - 1, by
            have := Nat.mul_pos (show 0 < p + 2 by omega) (show 0 < c + 2 by omega)
            omega⟩
        have hcalc : g.modify_in_rect pl pb pr pt ly func =
            List.foldl (modifyStep ly func) (g, [])
              (IterCoords.run
                (((g.iter_coords_in_rect pl pb pr pt).top + 2) *
                  ((g.iter_coords_in_rect pl pb pr pt).right + 2))
                (g.iter_coords_in_rect pl pb pr pt)) := rfl
        rw [hcalc, hs0]
        simp only []
        rw [hm, hrun m, List.foldl_cons, List.foldl_nil]
        unfold modifyStep
        rw [show (g, (([] : List (Nat × Nat)))).1.get_cell_by_indices
            (c, p).1 (c, p).2 ly = some v from hsome]
        rfl

/-- Witness for C6: a 1 by 1 physical rectangle inside cell (0,0) of the
10 by 10 grid invokes the mutator exactly once. -/
theorem C6_witness :
    (grid10.modify_in_rect 3 3 4 4 0 fun _ v => v + 100).2 = [(0, 0)] := by
  refine C6_single_cell_modify grid10 3 3 4 4 0 0 0 _ ?_ (by decide) (by decide)
    (by decide) (by decide)
  norm_num [Grid.get_edges, grid10]

/-! Synchronisation of the coordinate-zip wrapper with the inner iterator. -/

theorem sync_go (data : List (List (List V))) (ly l r b t : Nat)
    (hfull : ∀ c p, l ≤ c → c ≤ r → b ≤ p → p ≤ t →
      (lookup data ly c p).isSome = true) :
    ∀ fuel (s : IterGridRect),
      s.layer = ly → s.y_up = true → s.left = l → s.right = r →
      s.bottom = b → s.top = t →
      (s.done = false → l ≤ s.current_col ∧ s.current_col ≤ r ∧
        b ≤ s.current_row ∧ s.current_row ≤ t) →
      IterWithCoords.run data fuel ⟨s, s.current_col, s.current_row⟩ =
        IterGridRect.runTrace data fuel s := by
  intro fuel
  induction fuel with
  | zero =>
    intro s _ _ _ _ _ _ _
    rfl
  | succ fuel ih =>
    intro s hly hup hL hR hB hT hin
    by_cases hd : s.done = true
    · rw [runTrace_done hd]
      simp [IterWithCoords.run, IterWithCoords.next, next_done hd]
    · have hd2 : s.done = false := by
        revert hd
        cases s.done <;> simp
      obtain ⟨hc1, hc2, hc3, hc4⟩ := hin hd2
      have hsome := hfull s.current_col s.current_row hc1 hc2 hc3 hc4
      obtain ⟨v, hv⟩ := Option.isSome_iff_exists.mp hsome
      rw [← hly] at hv
      obtain ⟨L, col, h1, h2, h3⟩ := lookup_chain hv
      have hnc := nextc_found hd2 h1 h2 h3
      have hnx : IterGridRect.next data s = (some v, s.advance) := by
        rw [next_eq, hnc]
        rfl
      obtain ⟨hfL, hfR, hfT, hfB, hfLy, hfUp⟩ := advance_frame s
      have ihadv := ih s.advance (hfLy.trans hly) (hfUp.trans hup) (hfL.trans hL)
        (hfR.trans hR) (hfB.trans hB) (hfT.trans hT)
      simp only [IterWithCoords.run, IterWithCoords.next, hnx,
        IterGridRect.runTrace, hnc]
      rw [hfR]
      by_cases hcase : s.current_col + 1 ≤ s.right
      · have hadv := advance_no_wrap hcase
        have hcc : s.advance.current_col = s.current_col + 1 := by rw [hadv]
        have hcr : s.advance.current_row = s.current_row := by rw [hadv]
        have hdn : s.advance.done = s.done := by rw [hadv]
        rw [if_neg (not_lt.mpr hcase)]
        refine congrArg (List.cons _) ?_
        rw [← hcc, ← hcr]
        refine ihadv ?_
        intro _
        rw [hcc, hcr]
        exact ⟨by omega, by omega, by omega, by omega⟩
      · have hw : s.right < s.current_col + 1 := by omega
        rw [if_pos hw]
        by_cases hrow : s.current_row + 1 ≤ s.top
        · have hadv := advance_wrap_up hup hw hrow
          have hcc : s.advance.current_col = s.left := by rw [hadv]
          have hcr : s.advance.current_row = s.current_row + 1 := by rw [hadv]
          refine congrArg (List.cons _) ?_
          rw [hfL, ← hcc, ← hcr]
          refine ihadv ?_
          intro _
          rw [hcc, hcr]
          exact ⟨by omega, by omega, by omega, by omega⟩
        · have hadv := advance_wrap_up_done hup hw (by omega)
          have hcc : s.advance.current_col = s.left := by rw [hadv]
          have hcr : s.advance.current_row = s.current_row + 1 := by rw [hadv]
          have hdn : s.advance.done = true := by rw [hadv]
          refine congrArg (List.cons _) ?_
          rw [hfL, ← hcc, ← hcr]
          refine ihadv ?_
          intro hff
          rw [hdn] at hff
          exact absurd hff (by simp)

/-- Claim C9, amended to the ascending direction.  For a fresh ascending
rect iterator over fully populated bounds, the coordinate-zip wrapper stays
perfectly synchronised: its `(value, column, row)` triples equal the
instrumented inner traversal, which records the exact coordinates each
value was looked up at. -/
theorem C9_sync_amended (data : List (List (List V))) (f : Nat → Nat → V)
    (ly l r b t : Nat) (hlr : l ≤ r) (hbt : b ≤ t)
    (Hlook : ∀ c p, l ≤ c → c ≤ r → b ≤ p → p ≤ t →
      lookup data ly c p = some (f c p)) :
    ∀ fuel,
      IterWithCoords.run data fuel
          (IterGridRect.enumerate_coords (stUpA ly l r b t 0)) =
        IterGridRect.runTrace data fuel (stUpA ly l r b t 0) := by
  intro fuel
  have hfull : ∀ c p, l ≤ c → c ≤ r → b ≤ p → p ≤ t →
      (lookup data ly c p).isSome = true := by
    intro c p h1 h2 h3 h4
    rw [Hlook c p h1 h2 h3 h4]
    rfl
  refine sync_go data ly l r b t hfull fuel (stUpA ly l r b t 0)
    rfl rfl rfl rfl rfl rfl ?_
  intro _
  simp only [stUpA, Nat.zero_mod, Nat.zero_div, Nat.add_zero]
  exact ⟨Nat.le_refl l, hlr, Nat.le_refl b, hbt⟩

/-- Counterexample to C9 as stated: after `y_down()` on the 2 by 2 seeded
grid, the wrapper's triples report rows `1, 1, 2, 2` while the inner
iterator actually reads rows `1, 1, 0, 0` — the independently tracked
cursor desynchronises in the descending direction. -/
theorem C9_counterexample :
    Option.map
        (fun sd => IterWithCoords.run g22.data 10 (IterGridRect.enumerate_coords sd))
        ((g22.iter_cells_in_rect 0 0 2 2 0).y_down) =
      some [(2, 0, 1), (3, 1, 1), (0, 0, 2), (1, 1, 2)] ∧
    Option.map (fun sd => IterGridRect.runTrace g22.data 10 sd)
        ((g22.iter_cells_in_rect 0 0 2 2 0).y_down) =
      some [(2, 0, 1), (3, 1, 1), (0, 0, 0), (1, 1, 0)] := by
  have he : g22.get_edges 0 0 2 2 = (0, 0, 1, 1) := by
    norm_num [Grid.get_edges, g22]
  have hs : g22.iter_cells_in_rect 0 0 2 2 0 = ⟨0, true, 1, 0, 0, 1, 0, 0, false⟩ := by
    rw [Grid.iter_cells_in_rect, he]
  rw [hs]
  decide

/-- Witness for C9 (amended): on the 3 by 2 seeded grid the ascending
zip run coincides with the instrumented inner traversal. -/
theorem C9_witness :
    IterWithCoords.run (seedData 3 2) 10
        (IterGridRect.enumerate_coords (stUpA 0 0 2 0 1 0)) =
      IterGridRect.runTrace (seedData 3 2) 10 (stUpA 0 0 2 0 1 0) := by
  have hseed : ∀ c p, 0 ≤ c → c ≤ 2 → 0 ≤ p → p ≤ 1 →
      lookup (seedData 3 2) 0 c p = some (p * 3 + c) := by
    intro c p _ hc _ hp
    interval_cases c <;> interval_cases p <;> rfl
  exact C9_sync_amended (seedData 3 2) (fun c p => p * 3 + c) 0 0 2 0 1
    (by omega) (by omega) hseed 10

end Gridstore
